import Mathlib

/-!
Shallow embedding of the Tableau user-export lambda
(src/_lambda_functions/fucntions/tableau_export/src/lamba_function.py)
and proofs about its protocol layer: the HTTP transport wrapper, the
sign-in request body, the paginated user listing with its JSON-first /
XML-fallback content negotiation, the CSV serialization, and the
top-level handler flow.

Python dictionaries parsed out of JSON objects or XML attribute nodes are
modelled as association lists of string pairs; HTTP responses are modelled
at the parsed level (status, content-type, raw body text, and the payload a
successful parse of the body would produce); the unbounded `while True`
pagination loop is modelled with an explicit fuel parameter, with a
distinguished out-of-fuel result so that termination statements are about
the code and not about the model.
-/

/-- A raw user record: the attribute map taken from one JSON user object or
one XML user node, as key/value string pairs (a Python dict). -/
abbrev UserRec := List (String × String)

/-- Python dict lookup with a default: models the source's u.get(k, ""). -/
def recGet (u : UserRec) (k : String) : String :=
  match u.find? (fun p => p.1 == k) with
  | some p => p.2
  | none => ""

/-- ASCII lowercasing of one character, as str.lower() acts on the ASCII
content-type strings this client inspects. -/
def charLower (c : Char) : Char :=
  if 65 ≤ c.toNat ∧ c.toNat ≤ 90 then Char.ofNat (c.toNat + 32) else c

/-- Lowercased character list of a string: models ctype.lower(). -/
def ctypeLower (s : String) : List Char :=
  s.toList.map charLower

/-- Does the second list start with the first one? -/
def startsWithList : List Char → List Char → Bool
  | [], _ => true
  | _ :: _, [] => false
  | n :: ns, h :: hs => n == h && startsWithList ns hs

/-- Does the needle occur as a contiguous run inside the haystack?  Models
the Python substring test (needle in haystack). -/
def containsList (needle : List Char) : List Char → Bool
  | [] => startsWithList needle []
  | h :: t => startsWithList needle (h :: t) || containsList needle t

/-- First n characters of a string: models the Python slice text[:n] used to
truncate diagnostic body snippets. -/
def strTake (n : Nat) (s : String) : String :=
  String.mk (s.toList.take n)

/-- The request/response format of the Tableau REST exchange. -/
inductive Fmt
  | json
  | xml
deriving DecidableEq

/-- One HTTP request issued by the pagination loop: which page number was
asked for and with which Accept format. -/
structure Req where
  page : Nat
  fmt : Fmt
deriving DecidableEq

/-- What a successful parse of a response body yields.  jsonUsers carries
the batch data["users"]["user"] (empty when the key chain is absent) and
pagination's totalAvailable when present; xmlUsers carries the user
attribute maps under the users node, or none when that node is absent;
creds carries the token and site id of a sign-in response; raw stands for
any body that parses as neither. -/
inductive Payload
  | jsonUsers (batch : List UserRec) (totalAvailable : Option Nat)
  | xmlUsers (batch : Option (List UserRec))
  | creds (token : String) (siteId : String)
  | raw
deriving DecidableEq

/-- An HTTP response as the client sees it: status code, Content-Type
header value, decoded body text, and the parsed view of that body. -/
structure HttpResp where
  status : Nat
  ctype : String
  body : String
  payload : Payload
deriving DecidableEq

/-- A mocked server for the listing endpoint: the response to the GET for a
given page number under Accept application/json, and under Accept
application/xml.  An error value models a connection-level failure
(urllib raising), which propagates as an exception. -/
structure Server where
  jsonAt : Nat → Except String HttpResp
  xmlAt : Nat → Except String HttpResp

/-- One low-level HTTP attempt as urllib reports it: a normal response, an
HTTPError carrying a status and possibly headers, or a connection-level
failure (DNS, TLS, timeout) that raises through. -/
inductive HttpAttempt
  | success (status : Nat) (ctypeHeader : Option String) (body : String)
  | httpError (code : Nat) (ctypeHeader : Option String) (body : String)
  | connFailure (msg : String)
deriving DecidableEq

/-- The transport wrapper: models _http_request.  Normal responses and
HTTPError responses are both returned as a (status, content-type, body)
triple, the content-type defaulting to "" when the header is absent;
only connection-level failures escape as errors. -/
def _http_request : HttpAttempt → Except String (Nat × String × String)
  | HttpAttempt.success s c b => Except.ok (s, c.getD "", b)
  | HttpAttempt.httpError code c b => Except.ok (code, c.getD "", b)
  | HttpAttempt.connFailure m => Except.error m

/-- The content-negotiation check on the JSON path of list_site_users:
status == 200 and (ctype or "").lower().startswith("application/json"). -/
def jsonCheck (r : HttpResp) : Bool :=
  r.status == 200 && startsWithList "application/json".toList (ctypeLower r.ctype)

/-- The check on the XML paths (sign-in and fallback): status == 200 and
"xml" in (ctype or "").lower(). -/
def xmlCheck (r : HttpResp) : Bool :=
  r.status == 200 && containsList "xml".toList (ctypeLower r.ctype)

/-- The sign-in request body exactly as signin builds it: an f-string with
the personal access token name, its secret, and the site content URL
interpolated verbatim, with no escaping of markup-reserved characters. -/
def signinBody (patName patSecret siteContentUrl : String) : String :=
  "<tsRequest>\n  <credentials personalAccessTokenName=\"" ++ patName ++
    "\"\n               personalAccessTokenSecret=\"" ++ patSecret ++
    "\">\n    <site contentUrl=\"" ++ siteContentUrl ++
    "\"/>\n  </credentials>\n</tsRequest>"

/-- Scans the haystack for the first occurrence of the needle and returns
everything after it, or none when the needle never occurs. -/
def dropMarker (needle : List Char) : List Char → Option (List Char)
  | [] => if needle = [] then some [] else none
  | h :: t =>
    if startsWithList needle (h :: t) then some (List.drop needle.length (h :: t))
    else dropMarker needle t

/-- Reads an attribute value out of a markup document the way a conforming
parser delimits it: the text between the quote that opens attr="... and
the next quote character. -/
def attrValue (body attrName : String) : Option String :=
  match dropMarker (attrName.toList ++ ['=', '"']) body.toList with
  | none => none
  | some rest => some (String.mk (rest.takeWhile (fun c => c != '"')))

/-- The outcome of list_site_users: the accumulated user list on success, a
ListError carrying the XML attempt's status, content-type and truncated
body when both formats fail on a page, a parse failure for a body that
does not match its advertised content-type, a transport failure for a
connection-level error, and fuelOut marking exhaustion of the fuel that
stands in for the unbounded while loop. -/
inductive ListRes
  | ok (users : List UserRec)
  | listErr (status : Nat) (ctype : String) (snippet : String)
  | parseFail
  | transportFail (msg : String)
  | fuelOut
deriving DecidableEq

/-- The pagination loop body of list_site_users.  Per page: issue the JSON
request; on 200 with a JSON content-type take the batch and the reported
total (defaulting to the batch length), stop once page * pageSize
reaches the total or the batch is empty; otherwise re-issue the same
page with Accept XML, abort with the XML attempt's data when that also
fails the check, and on XML success stop once the batch is empty or
short.  Returns the result together with the trace of requests issued. -/
def listLoop (srv : Server) (pageSize : Nat) : Nat → Nat → List UserRec → ListRes × List Req
  | 0, _, _ => (ListRes.fuelOut, [])
  | fuel + 1, page, users =>
    match srv.jsonAt page with
    | Except.error m => (ListRes.transportFail m, [⟨page, Fmt.json⟩])
    | Except.ok r =>
      if jsonCheck r then
        match r.payload with
        | Payload.jsonUsers batch totalAvailable =>
          let users2 := users ++ batch
          let total := totalAvailable.getD batch.length
          if total ≤ page * pageSize ∨ batch = [] then
            (ListRes.ok users2, [⟨page, Fmt.json⟩])
          else
            let next := listLoop srv pageSize fuel (page + 1) users2
            (next.1, ⟨page, Fmt.json⟩ :: next.2)
        | _ => (ListRes.parseFail, [⟨page, Fmt.json⟩])
      else
        match srv.xmlAt page with
        | Except.error m => (ListRes.transportFail m, [⟨page, Fmt.json⟩, ⟨page, Fmt.xml⟩])
        | Except.ok r2 =>
          if xmlCheck r2 then
            match r2.payload with
            | Payload.xmlUsers ob =>
              let batch := ob.getD []
              let users2 := users ++ batch
              if batch = [] ∨ batch.length < pageSize then
                (ListRes.ok users2, [⟨page, Fmt.json⟩, ⟨page, Fmt.xml⟩])
              else
                let next := listLoop srv pageSize fuel (page + 1) users2
                (next.1, ⟨page, Fmt.json⟩ :: ⟨page, Fmt.xml⟩ :: next.2)
            | _ => (ListRes.parseFail, [⟨page, Fmt.json⟩, ⟨page, Fmt.xml⟩])
          else
            (ListRes.listErr r2.status r2.ctype (strTake 400 r2.body),
              [⟨page, Fmt.json⟩, ⟨page, Fmt.xml⟩])

/-- list_site_users: run the pagination loop from page 1 with an empty
accumulator. -/
def list_site_users (srv : Server) (fuel : Nat) (pageSize : Nat) : ListRes × List Req :=
  listLoop srv pageSize fuel 1 []

/-- The fixed CSV schema of write_csv_to_s3. -/
def csvFields : List String :=
  ["id", "name", "fullName", "siteRole", "lastLogin", "email"]

/-- One CSV data row: the record's value for each of the six fields in
order, the empty string standing in for a missing key. -/
def rowOf (u : UserRec) : List String :=
  csvFields.map (fun k => recGet u k)

/-- The rows write_csv_to_s3 hands to the CSV writer: the header row
followed by one data row per record, in input order. -/
def csvTable (users : List UserRec) : List (List String) :=
  csvFields :: users.map rowOf

/-- Top-level folder of the S3 key, as in the source. -/
def HARD_CODED_PREFIX : String := "tableau"

/-- The fixed object key write_csv_to_s3 writes to. -/
def s3Key : String := HARD_CODED_PREFIX ++ "/tableau_server_users.csv"

/-- Effects a run performs against the outside world, in order: the sign-in
POST, the page GETs of the listing loop, and the S3 put of the rendered
table. -/
inductive Effect
  | signinReq
  | userReq (r : Req)
  | s3Put (bucket : String) (key : String) (table : List (List String))
deriving DecidableEq

/-- The fatal error taxonomy of a run, mirroring the RuntimeErrors and
uncaught exceptions of the source. -/
inductive RunError
  | authErr (status : Nat) (ctype : String) (snippet : String)
  | listFailed (status : Nat) (ctype : String) (snippet : String)
  | parseFailed
  | transportFailed (msg : String)
  | fuelExhausted
deriving DecidableEq

/-- The structured result lambda_handler returns on success. -/
structure HandlerResult where
  status : String
  count : Nat
  bucket : String
  key : String
deriving DecidableEq

/-- The world a run executes against: the sign-in response (or a
connection failure), the listing server, and the destination bucket. -/
structure World where
  signinResp : Except String HttpResp
  srv : Server
  bucket : String

/-- The sign-in exchange of signin, after the body is built: require
HTTP 200 with an xml content-type, then parse the token and site id out
of the credentials element; a 200-xml body that does not carry both is
a fatal parse error. -/
def signinStep (w : World) : Except RunError (String × String) :=
  match w.signinResp with
  | Except.error m => Except.error (RunError.transportFailed m)
  | Except.ok r =>
    if xmlCheck r then
      match r.payload with
      | Payload.creds token siteId => Except.ok (token, siteId)
      | _ => Except.error RunError.parseFailed
    else
      Except.error (RunError.authErr r.status r.ctype (strTake 400 r.body))

/-- lambda_handler: sign in, list every page of users, then render and
write the CSV.  The effect trace records what was performed before any
exception propagated; the S3 put is appended only on the success path,
after the complete user list is in hand. -/
def lambda_handler (w : World) (fuel : Nat) : Except RunError HandlerResult × List Effect :=
  match signinStep w with
  | Except.error e => (Except.error e, [Effect.signinReq])
  | Except.ok _ =>
    let lr := list_site_users w.srv fuel 1000
    match lr.1 with
    | ListRes.ok users =>
      (Except.ok ⟨"ok", users.length, w.bucket, s3Key⟩,
        Effect.signinReq :: lr.2.map Effect.userReq
          ++ [Effect.s3Put w.bucket s3Key (csvTable users)])
    | ListRes.listErr s c t =>
      (Except.error (RunError.listFailed s c t), Effect.signinReq :: lr.2.map Effect.userReq)
    | ListRes.parseFail =>
      (Except.error RunError.parseFailed, Effect.signinReq :: lr.2.map Effect.userReq)
    | ListRes.transportFail m =>
      (Except.error (RunError.transportFailed m), Effect.signinReq :: lr.2.map Effect.userReq)
    | ListRes.fuelOut =>
      (Except.error RunError.fuelExhausted, Effect.signinReq :: lr.2.map Effect.userReq)

/-- The slice of the user population a paginated server serves as page p
(1-based) at page size k. -/
def pageSlice (pop : List UserRec) (k p : Nat) : List UserRec :=
  (pop.drop ((p - 1) * k)).take k

/-- A well-behaved mocked server over a finite user population pop, paged
at size k, answering each page in the format fmt chooses for it: when
fmt picks json the JSON endpoint serves the page slice together with
totalAvailable = pop.length, and when fmt picks xml the JSON endpoint
refuses with 406 so that the loop falls back to the XML endpoint, which
serves the same slice. -/
def pagedServer (pop : List UserRec) (k : Nat) (fmt : Nat → Fmt) : Server :=
  ⟨fun p =>
      if fmt p = Fmt.json then
        Except.ok ⟨200, "application/json", "",
          Payload.jsonUsers (pageSlice pop k p) (some pop.length)⟩
      else
        Except.ok ⟨406, "text/plain", "Not Acceptable", Payload.raw⟩,
    fun p =>
      Except.ok ⟨200, "application/xml", "",
        Payload.xmlUsers (some (pageSlice pop k p))⟩⟩

/-- The request trace the loop produces against pagedServer, computed
directly from the population size N, the page size k and the per-page
format choice: one json request for a json page, a json request followed
by the xml fallback for an xml page, stopping with the page that reaches
the population (an xml page needs a strict overshoot, since a full final
batch does not reveal itself as last). -/
def expTrace (fmt : Nat → Fmt) (k N : Nat) : Nat → Nat → List Req
  | 0, _ => []
  | fuel + 1, p =>
    match fmt p with
    | Fmt.json =>
      if N ≤ p * k then [⟨p, Fmt.json⟩]
      else ⟨p, Fmt.json⟩ :: expTrace fmt k N fuel (p + 1)
    | Fmt.xml =>
      if N < p * k then [⟨p, Fmt.json⟩, ⟨p, Fmt.xml⟩]
      else ⟨p, Fmt.json⟩ :: ⟨p, Fmt.xml⟩ :: expTrace fmt k N fuel (p + 1)

/-- Did the JSON attempt for page p come back as a response that fails the
JSON content check (so that the code proceeds to the XML fallback)? -/
def jsonRejected (srv : Server) (p : Nat) : Bool :=
  match srv.jsonAt p with
  | Except.error _ => false
  | Except.ok r => !(jsonCheck r)

/-- A request trace is fallback-well-formed when no xml request appears
except immediately after a json request for the very same page whose
response failed the JSON check: the format is renegotiated from json on
every page. -/
def wfTrace (srv : Server) : List Req → Bool
  | [] => true
  | ⟨_, Fmt.xml⟩ :: _ => false
  | ⟨p, Fmt.json⟩ :: ⟨q, Fmt.xml⟩ :: rest =>
    decide (q = p) && jsonRejected srv p && wfTrace srv rest
  | ⟨_, Fmt.json⟩ :: [] => true
  | ⟨_, Fmt.json⟩ :: ⟨q, Fmt.json⟩ :: rest => wfTrace srv (⟨q, Fmt.json⟩ :: rest)

theorem listLoop_json_stop (srv : Server) (k fuel page : Nat) (users : List UserRec)
    (r : HttpResp) (batch : List UserRec) (ta : Option Nat)
    (hj : srv.jsonAt page = Except.ok r) (hc : jsonCheck r = true)
    (hpl : r.payload = Payload.jsonUsers batch ta)
    (hstop : ta.getD batch.length ≤ page * k ∨ batch = []) :
    listLoop srv k (fuel + 1) page users
      = (ListRes.ok (users ++ batch), [⟨page, Fmt.json⟩]) := by
  simp only [listLoop, hj, hc, hpl, if_true]
  rw [if_pos hstop]

theorem listLoop_json_cont (srv : Server) (k fuel page : Nat) (users : List UserRec)
    (r : HttpResp) (batch : List UserRec) (ta : Option Nat)
    (hj : srv.jsonAt page = Except.ok r) (hc : jsonCheck r = true)
    (hpl : r.payload = Payload.jsonUsers batch ta)
    (hcont : ¬(ta.getD batch.length ≤ page * k ∨ batch = [])) :
    listLoop srv k (fuel + 1) page users
      = ((listLoop srv k fuel (page + 1) (users ++ batch)).1,
          ⟨page, Fmt.json⟩ :: (listLoop srv k fuel (page + 1) (users ++ batch)).2) := by
  simp only [listLoop, hj, hc, hpl, if_true]
  rw [if_neg hcont]

theorem listLoop_xml_stop (srv : Server) (k fuel page : Nat) (users : List UserRec)
    (r r2 : HttpResp) (ob : Option (List UserRec))
    (hj : srv.jsonAt page = Except.ok r) (hc : jsonCheck r = false)
    (hx : srv.xmlAt page = Except.ok r2) (hxc : xmlCheck r2 = true)
    (hpl : r2.payload = Payload.xmlUsers ob)
    (hstop : ob.getD [] = [] ∨ (ob.getD []).length < k) :
    listLoop srv k (fuel + 1) page users
      = (ListRes.ok (users ++ ob.getD []), [⟨page, Fmt.json⟩, ⟨page, Fmt.xml⟩]) := by
  simp only [listLoop, hj, hc, hx, hxc, hpl, Bool.false_eq_true, if_false, if_true]
  rw [if_pos hstop]

theorem listLoop_xml_cont (srv : Server) (k fuel page : Nat) (users : List UserRec)
    (r r2 : HttpResp) (ob : Option (List UserRec))
    (hj : srv.jsonAt page = Except.ok r) (hc : jsonCheck r = false)
    (hx : srv.xmlAt page = Except.ok r2) (hxc : xmlCheck r2 = true)
    (hpl : r2.payload = Payload.xmlUsers ob)
    (hcont : ¬(ob.getD [] = [] ∨ (ob.getD []).length < k)) :
    listLoop srv k (fuel + 1) page users
      = ((listLoop srv k fuel (page + 1) (users ++ ob.getD [])).1,
          ⟨page, Fmt.json⟩ :: ⟨page, Fmt.xml⟩
            :: (listLoop srv k fuel (page + 1) (users ++ ob.getD [])).2) := by
  simp only [listLoop, hj, hc, hx, hxc, hpl, Bool.false_eq_true, if_false, if_true]
  rw [if_neg hcont]

theorem listLoop_xml_err (srv : Server) (k fuel page : Nat) (users : List UserRec)
    (r r2 : HttpResp)
    (hj : srv.jsonAt page = Except.ok r) (hc : jsonCheck r = false)
    (hx : srv.xmlAt page = Except.ok r2) (hxc : xmlCheck r2 = false) :
    listLoop srv k (fuel + 1) page users
      = (ListRes.listErr r2.status r2.ctype (strTake 400 r2.body),
          [⟨page, Fmt.json⟩, ⟨page, Fmt.xml⟩]) := by
  simp only [listLoop, hj, hc, hx, hxc, Bool.false_eq_true, if_false]

theorem pagedServer_jsonAt_json (pop : List UserRec) (k : Nat) (fmt : Nat → Fmt) (p : Nat)
    (hf : fmt p = Fmt.json) :
    (pagedServer pop k fmt).jsonAt p
      = Except.ok ⟨200, "application/json", "",
          Payload.jsonUsers (pageSlice pop k p) (some pop.length)⟩ := by
  simp [pagedServer, hf]

theorem pagedServer_jsonAt_xml (pop : List UserRec) (k : Nat) (fmt : Nat → Fmt) (p : Nat)
    (hf : fmt p = Fmt.xml) :
    (pagedServer pop k fmt).jsonAt p
      = Except.ok ⟨406, "text/plain", "Not Acceptable", Payload.raw⟩ := by
  simp [pagedServer, hf]

theorem pagedServer_xmlAt (pop : List UserRec) (k : Nat) (fmt : Nat → Fmt) (p : Nat) :
    (pagedServer pop k fmt).xmlAt p
      = Except.ok ⟨200, "application/xml", "",
          Payload.xmlUsers (some (pageSlice pop k p))⟩ := rfl

theorem jsonCheck_appjson (b : String) (pl : Payload) :
    jsonCheck ⟨200, "application/json", b, pl⟩ = true := rfl

theorem jsonCheck_406 (b : String) (pl : Payload) :
    jsonCheck ⟨406, "text/plain", b, pl⟩ = false := rfl

theorem xmlCheck_appxml (b : String) (pl : Payload) :
    xmlCheck ⟨200, "application/xml", b, pl⟩ = true := rfl

theorem pageSlice_length (pop : List UserRec) (k p : Nat) :
    (pageSlice pop k p).length = min k (pop.length - (p - 1) * k) := by
  simp [pageSlice]

theorem pagedLoop_ok (pop : List UserRec) (k : Nat) (fmt : Nat → Fmt) (hk : 1 ≤ k) :
    ∀ (fuel q : Nat) (users : List UserRec),
      q * k ≤ pop.length →
      pop.length + 1 ≤ fuel * k + q * k →
      listLoop (pagedServer pop k fmt) k fuel (q + 1) users
        = (ListRes.ok (users ++ pop.drop (q * k)),
            expTrace fmt k pop.length fuel (q + 1)) := by
  intro fuel
  induction fuel with
  | zero =>
    intro q users hinv hfuel
    exfalso
    omega
  | succ f ih =>
    intro q users hinv hfuel
    have hmul : (q + 1) * k = q * k + k := Nat.succ_mul q k
    have hmulf : (f + 1) * k = f * k + k := Nat.succ_mul f k
    have hdl : (pop.drop (q * k)).length = pop.length - q * k := List.length_drop _ _
    have hslice : pageSlice pop k (q + 1) = (pop.drop (q * k)).take k := rfl
    cases hf : fmt (q + 1) with
    | json =>
      have hj := pagedServer_jsonAt_json pop k fmt (q + 1) hf
      by_cases hstop : pop.length ≤ (q + 1) * k
      · have hall : pageSlice pop k (q + 1) = pop.drop (q * k) := by
          rw [hslice]
          exact List.take_of_length_le (by omega)
        rw [listLoop_json_stop _ _ f _ _ _ _ _ hj (jsonCheck_appjson _ _) rfl
          (Or.inl hstop)]
        rw [hall]
        simp only [expTrace, hf]
        rw [if_pos hstop]
      · have hlen : (pageSlice pop k (q + 1)).length = k := by
          rw [pageSlice_length]
          simp only [Nat.add_sub_cancel]
          omega
        have hne : pageSlice pop k (q + 1) ≠ [] := by
          intro h
          rw [h] at hlen
          simp at hlen
          omega
        have hcond : ¬((some pop.length).getD (pageSlice pop k (q + 1)).length
            ≤ (q + 1) * k ∨ pageSlice pop k (q + 1) = []) := by
          rintro (h | h)
          · exact hstop h
          · exact hne h
        rw [listLoop_json_cont _ _ f _ _ _ _ _ hj (jsonCheck_appjson _ _) rfl hcond]
        rw [ih (q + 1) (users ++ pageSlice pop k (q + 1)) (by omega) (by omega)]
        have husers : users ++ pageSlice pop k (q + 1) ++ pop.drop ((q + 1) * k)
            = users ++ pop.drop (q * k) := by
          rw [List.append_assoc, hslice, hmul, ← List.drop_drop, List.take_append_drop]
        rw [husers]
        simp only [expTrace, hf]
        rw [if_neg hstop]
    | xml =>
      have hj := pagedServer_jsonAt_xml pop k fmt (q + 1) hf
      have hx := pagedServer_xmlAt pop k fmt (q + 1)
      by_cases hstop : pop.length < (q + 1) * k
      · have hall : pageSlice pop k (q + 1) = pop.drop (q * k) := by
          rw [hslice]
          exact List.take_of_length_le (by omega)
        have hshort : (pageSlice pop k (q + 1)).length < k := by
          rw [pageSlice_length]
          simp only [Nat.add_sub_cancel]
          omega
        rw [listLoop_xml_stop _ _ f _ _ _ _ _ hj (jsonCheck_406 _ _) hx
          (xmlCheck_appxml _ _) rfl (Or.inr hshort)]
        rw [show (some (pageSlice pop k (q + 1))).getD [] = pageSlice pop k (q + 1) from rfl,
          hall]
        simp only [expTrace, hf]
        rw [if_pos hstop]
      · have hlen : (pageSlice pop k (q + 1)).length = k := by
          rw [pageSlice_length]
          simp only [Nat.add_sub_cancel]
          omega
        have hne : pageSlice pop k (q + 1) ≠ [] := by
          intro h
          rw [h] at hlen
          simp at hlen
          omega
        have hcond : ¬((some (pageSlice pop k (q + 1))).getD [] = []
            ∨ ((some (pageSlice pop k (q + 1))).getD []).length < k) := by
          rintro (h | h)
          · exact hne h
          · rw [show (some (pageSlice pop k (q + 1))).getD []
                = pageSlice pop k (q + 1) from rfl] at h
            omega
        rw [listLoop_xml_cont _ _ f _ _ _ _ _ hj (jsonCheck_406 _ _) hx
          (xmlCheck_appxml _ _) rfl hcond]
        rw [show (some (pageSlice pop k (q + 1))).getD [] = pageSlice pop k (q + 1) from rfl]
        rw [ih (q + 1) (users ++ pageSlice pop k (q + 1)) (by omega) (by omega)]
        have husers : users ++ pageSlice pop k (q + 1) ++ pop.drop ((q + 1) * k)
            = users ++ pop.drop (q * k) := by
          rw [List.append_assoc, hslice, hmul, ← List.drop_drop, List.take_append_drop]
        rw [husers]
        simp only [expTrace, hf]
        rw [if_neg hstop]

theorem listLoop_trace_head (srv : Server) (k fuel page : Nat) (users : List UserRec) :
    (listLoop srv k fuel page users).2 = []
      ∨ ∃ tl, (listLoop srv k fuel page users).2 = ⟨page, Fmt.json⟩ :: tl := by
  cases fuel with
  | zero => exact Or.inl rfl
  | succ f =>
    right
    simp only [listLoop]
    repeat' split
    all_goals exact ⟨_, rfl⟩

theorem listLoop_wfTrace (srv : Server) (k : Nat) :
    ∀ (fuel page : Nat) (users : List UserRec),
      wfTrace srv (listLoop srv k fuel page users).2 = true := by
  intro fuel
  induction fuel with
  | zero => intro page users; rfl
  | succ f ih =>
    intro page users
    cases hj : srv.jsonAt page with
    | error m =>
      simp only [listLoop, hj]
      rfl
    | ok r =>
      by_cases hc : jsonCheck r = true
      · cases hpl : r.payload with
        | jsonUsers batch ta =>
          by_cases hstop : ta.getD batch.length ≤ page * k ∨ batch = []
          · rw [listLoop_json_stop _ _ f _ _ _ _ _ hj hc hpl hstop]
            rfl
          · rw [listLoop_json_cont _ _ f _ _ _ _ _ hj hc hpl hstop]
            rcases listLoop_trace_head srv k f (page + 1) (users ++ batch) with h | ⟨tl, h⟩
            · rw [h]
              rfl
            · rw [h]
              have hred : wfTrace srv (⟨page, Fmt.json⟩ :: ⟨page + 1, Fmt.json⟩ :: tl)
                  = wfTrace srv (⟨page + 1, Fmt.json⟩ :: tl) := rfl
              rw [hred, ← h]
              exact ih (page + 1) (users ++ batch)
        | xmlUsers ob =>
          simp only [listLoop, hj, hc, hpl, if_true]
          rfl
        | creds t s =>
          simp only [listLoop, hj, hc, hpl, if_true]
          rfl
        | raw =>
          simp only [listLoop, hj, hc, hpl, if_true]
          rfl
      · have hc2 : jsonCheck r = false := by
          revert hc
          cases jsonCheck r <;> simp
        have hrej : jsonRejected srv page = true := by
          simp [jsonRejected, hj, hc2]
        cases hx : srv.xmlAt page with
        | error m =>
          simp only [listLoop, hj, hc2, Bool.false_eq_true, if_false, hx]
          show (decide (page = page) && jsonRejected srv page && wfTrace srv []) = true
          simp [hrej, wfTrace]
        | ok r2 =>
          by_cases hxc : xmlCheck r2 = true
          · cases hpl2 : r2.payload with
            | xmlUsers ob =>
              by_cases hstop : ob.getD [] = [] ∨ (ob.getD []).length < k
              · rw [listLoop_xml_stop _ _ f _ _ _ _ _ hj hc2 hx hxc hpl2 hstop]
                show (decide (page = page) && jsonRejected srv page && wfTrace srv []) = true
                simp [hrej, wfTrace]
              · rw [listLoop_xml_cont _ _ f _ _ _ _ _ hj hc2 hx hxc hpl2 hstop]
                show (decide (page = page) && jsonRejected srv page
                    && wfTrace srv (listLoop srv k f (page + 1) (users ++ ob.getD [])).2) = true
                simp [hrej, ih (page + 1) (users ++ ob.getD [])]
            | jsonUsers batch ta =>
              simp only [listLoop, hj, hc2, Bool.false_eq_true, if_false, hx, hxc, hpl2, if_true]
              show (decide (page = page) && jsonRejected srv page && wfTrace srv []) = true
              simp [hrej, wfTrace]
            | creds t s =>
              simp only [listLoop, hj, hc2, Bool.false_eq_true, if_false, hx, hxc, hpl2, if_true]
              show (decide (page = page) && jsonRejected srv page && wfTrace srv []) = true
              simp [hrej, wfTrace]
            | raw =>
              simp only [listLoop, hj, hc2, Bool.false_eq_true, if_false, hx, hxc, hpl2, if_true]
              show (decide (page = page) && jsonRejected srv page && wfTrace srv []) = true
              simp [hrej, wfTrace]
          · have hxc2 : xmlCheck r2 = false := by
              revert hxc
              cases xmlCheck r2 <;> simp
            rw [listLoop_xml_err _ _ f _ _ _ _ hj hc2 hx hxc2]
            show (decide (page = page) && jsonRejected srv page && wfTrace srv []) = true
            simp [hrej, wfTrace]

/-- A one-page demonstration server whose JSON endpoint answers. -/
def demoJsonServer : Server :=
  ⟨fun _ => Except.ok ⟨200, "application/json", "",
      Payload.jsonUsers [[("id", "x")]] (some 1)⟩,
    fun _ => Except.ok ⟨404, "text/plain", "", Payload.raw⟩⟩

/-- A one-page demonstration server that refuses JSON and answers XML. -/
def demoXmlServer : Server :=
  ⟨fun _ => Except.ok ⟨406, "text/plain", "no", Payload.raw⟩,
    fun _ => Except.ok ⟨200, "application/xml", "",
      Payload.xmlUsers (some [[("id", "y")]])⟩⟩

/-- A demonstration server that refuses both formats. -/
def demoBadServer : Server :=
  ⟨fun _ => Except.ok ⟨406, "text/plain", "no", Payload.raw⟩,
    fun _ => Except.ok ⟨500, "text/html", "boom", Payload.raw⟩⟩

/-- A demonstration server whose JSON page carries no pagination metadata. -/
def demoNoTotalServer : Server :=
  ⟨fun _ => Except.ok ⟨200, "application/json", "",
      Payload.jsonUsers [[("id", "n")]] none⟩,
    fun _ => Except.ok ⟨404, "text/plain", "", Payload.raw⟩⟩

/-- C1: against a mocked paginated server holding the population pop served
in page slices of size k, each page answered in whichever format the
choice function picks for it, list_site_users returns exactly the whole
population, concatenated in page order, with no record dropped or
reordered; in particular the result length is the sum of all page batch
sizes, which is the population size. -/
theorem c1_all_records_in_page_order (pop : List UserRec) (k : Nat)
    (fmt : Nat → Fmt) (fuel : Nat) (hk : 1 ≤ k)
    (hfuel : pop.length + 1 ≤ fuel * k) :
    (list_site_users (pagedServer pop k fmt) fuel k).1 = ListRes.ok pop
      ∧ ∀ us, (list_site_users (pagedServer pop k fmt) fuel k).1 = ListRes.ok us →
          us.length = pop.length := by
  have h := pagedLoop_ok pop k fmt hk fuel 0 [] (by simp) (by simpa using hfuel)
  simp only [Nat.zero_add, Nat.zero_mul, List.drop_zero, List.nil_append] at h
  constructor
  · simp only [list_site_users]
    rw [h]
  · intro us hus
    simp only [list_site_users] at hus
    rw [h] at hus
    simp only at hus
    cases hus
    rfl

/-- Witness for C1 at a concrete input: three records paged two per page,
page 1 served as JSON and page 2 via the XML fallback. -/
theorem c1_concrete_run :
    (list_site_users
        (pagedServer [[("id", "a")], [("id", "b")], [("id", "c")]] 2
          (fun p => if p = 1 then Fmt.json else Fmt.xml)) 4 2).1
      = ListRes.ok [[("id", "a")], [("id", "b")], [("id", "c")]] :=
  (c1_all_records_in_page_order [[("id", "a")], [("id", "b")], [("id", "c")]] 2
    (fun p => if p = 1 then Fmt.json else Fmt.xml) 4 (by decide) (by decide)).1

/-- C3: the pagination loop terminates.  On the structured path it stops as
soon as page times pageSize reaches the reported total (the batch length
when no total is reported) or the batch is empty; on the markup path it
stops as soon as the batch is empty or shorter than the page size; and
against any paged mock over a finite population it never exhausts a fuel
budget of one step per user. -/
theorem c3_pagination_terminates :
    (∀ (srv : Server) (k fuel page : Nat) (users : List UserRec) (r : HttpResp)
        (batch : List UserRec) (ta : Option Nat),
        srv.jsonAt page = Except.ok r → jsonCheck r = true →
        r.payload = Payload.jsonUsers batch ta →
        ta.getD batch.length ≤ page * k ∨ batch = [] →
        listLoop srv k (fuel + 1) page users
          = (ListRes.ok (users ++ batch), [⟨page, Fmt.json⟩]))
  ∧ (∀ (srv : Server) (k fuel page : Nat) (users : List UserRec) (r r2 : HttpResp)
        (ob : Option (List UserRec)),
        srv.jsonAt page = Except.ok r → jsonCheck r = false →
        srv.xmlAt page = Except.ok r2 → xmlCheck r2 = true →
        r2.payload = Payload.xmlUsers ob →
        ob.getD [] = [] ∨ (ob.getD []).length < k →
        listLoop srv k (fuel + 1) page users
          = (ListRes.ok (users ++ ob.getD []), [⟨page, Fmt.json⟩, ⟨page, Fmt.xml⟩]))
  ∧ (∀ (pop : List UserRec) (k fuel : Nat) (fmt : Nat → Fmt),
        1 ≤ k → pop.length + 1 ≤ fuel * k →
        (list_site_users (pagedServer pop k fmt) fuel k).1 ≠ ListRes.fuelOut) := by
  refine ⟨?_, ?_, ?_⟩
  · intro srv k fuel page users r batch ta hj hc hpl hstop
    exact listLoop_json_stop srv k fuel page users r batch ta hj hc hpl hstop
  · intro srv k fuel page users r r2 ob hj hc hx hxc hpl hstop
    exact listLoop_xml_stop srv k fuel page users r r2 ob hj hc hx hxc hpl hstop
  · intro pop k fuel fmt hk hfuel
    have h := pagedLoop_ok pop k fmt hk fuel 0 [] (by simp) (by simpa using hfuel)
    simp only [Nat.zero_add, Nat.zero_mul, List.drop_zero, List.nil_append] at h
    simp only [list_site_users]
    rw [h]
    simp

/-- Witness for C3 at concrete inputs: a JSON page that reaches its total,
an XML fallback page that comes back short, and a finite-population mock
run that does not run out of fuel. -/
theorem c3_concrete_run :
    listLoop demoJsonServer 1000 1 1 []
        = (ListRes.ok [[("id", "x")]], [⟨1, Fmt.json⟩])
  ∧ listLoop demoXmlServer 1000 1 1 []
        = (ListRes.ok [[("id", "y")]], [⟨1, Fmt.json⟩, ⟨1, Fmt.xml⟩])
  ∧ (list_site_users (pagedServer [[("id", "z")]] 5 (fun _ => Fmt.json)) 2 5).1
        ≠ ListRes.fuelOut :=
  ⟨c3_pagination_terminates.1 demoJsonServer 1000 0 1 []
      ⟨200, "application/json", "", Payload.jsonUsers [[("id", "x")]] (some 1)⟩
      [[("id", "x")]] (some 1) rfl rfl rfl (by decide),
    c3_pagination_terminates.2.1 demoXmlServer 1000 0 1 []
      ⟨406, "text/plain", "no", Payload.raw⟩
      ⟨200, "application/xml", "", Payload.xmlUsers (some [[("id", "y")]])⟩
      (some [[("id", "y")]]) rfl rfl rfl rfl rfl (by decide),
    c3_pagination_terminates.2.2 [[("id", "z")]] 5 2 (fun _ => Fmt.json)
      (by decide) (by decide)⟩

/-- The 2500-user population of the pagination-termination scenario. -/
def c5pop : List UserRec := List.replicate 2500 [("id", "u")]

/-- A structured-format server holding 2500 users paged at size 1000. -/
def c5srv : Server := pagedServer c5pop 1000 (fun _ => Fmt.json)

/-- C5: against a structured server reporting totalAvailable 2500 at page
size 1000, list_site_users issues exactly the three requests for pages
1, 2 and 3 (no fourth request) and returns all 2500 accumulated
records. -/
theorem c5_three_pages_for_2500 :
    (list_site_users c5srv 2501 1000).1 = ListRes.ok c5pop
  ∧ (list_site_users c5srv 2501 1000).2
      = [⟨1, Fmt.json⟩, ⟨2, Fmt.json⟩, ⟨3, Fmt.json⟩]
  ∧ c5pop.length = 2500 := by
  have hlen : c5pop.length = 2500 := by
    unfold c5pop
    rw [List.length_replicate]
  have h := pagedLoop_ok c5pop 1000 (fun _ => Fmt.json) (by omega) 2501 0 []
    (by simp) (by rw [hlen]; omega)
  simp only [Nat.zero_add, Nat.zero_mul, List.drop_zero, List.nil_append] at h
  refine ⟨?_, ?_, hlen⟩
  · simp only [list_site_users, c5srv]
    rw [h]
  · simp only [list_site_users, c5srv]
    rw [h]
    simp only [hlen]
    decide

/-- C6: the negotiated format is never pinned across pages.  In every trace
list_site_users produces, against any server and any fuel budget, a
markup request appears only immediately after a structured request for
the very same page whose response failed the JSON check; every page is
attempted in the structured format first. -/
theorem c6_json_attempted_first_every_page (srv : Server) (fuel k : Nat) :
    wfTrace srv (list_site_users srv fuel k).2 = true := by
  simp only [list_site_users]
  exact listLoop_wfTrace srv k fuel 1 []

/-- C10: a structured 200-JSON page response with no totalAvailable field
makes the loop take the batch length as the total, so when that batch is
no larger than the page size the loop returns right after that page,
issuing no further request. -/
theorem c10_missing_total_defaults_to_batch_length (srv : Server)
    (k fuel page : Nat) (users : List UserRec) (r : HttpResp)
    (batch : List UserRec)
    (hj : srv.jsonAt page = Except.ok r) (hc : jsonCheck r = true)
    (hpl : r.payload = Payload.jsonUsers batch none)
    (hp : 1 ≤ page) (hb : batch.length ≤ k) :
    listLoop srv k (fuel + 1) page users
      = (ListRes.ok (users ++ batch), [⟨page, Fmt.json⟩]) := by
  apply listLoop_json_stop srv k fuel page users r batch none hj hc hpl
  left
  show batch.length ≤ page * k
  calc batch.length ≤ k := hb
    _ = 1 * k := (Nat.one_mul k).symm
    _ ≤ page * k := Nat.mul_le_mul_right k hp

/-- Witness for C10 at a concrete input: a single JSON page with one user
and no pagination block stops the run after page 1. -/
theorem c10_concrete_run :
    listLoop demoNoTotalServer 1000 1 1 []
      = (ListRes.ok [[("id", "n")]], [⟨1, Fmt.json⟩]) :=
  c10_missing_total_defaults_to_batch_length demoNoTotalServer 1000 0 1 []
    ⟨200, "application/json", "", Payload.jsonUsers [[("id", "n")]] none⟩
    [[("id", "n")]] rfl rfl rfl (by decide) (by decide)

/-- C4: on any page whose structured request does not come back as HTTP 200
with a JSON content-type, the loop re-issues the request for that same
page number asking for markup before failing; when that markup attempt
also fails the check, the run aborts with a list error carrying the
status, content-type and 400-character body snippet of the markup
attempt, not of the structured attempt. -/
theorem c4_fallback_error_reports_markup_attempt (srv : Server)
    (k fuel page : Nat) (users : List UserRec) (r r2 : HttpResp)
    (hj : srv.jsonAt page = Except.ok r) (hc : jsonCheck r = false)
    (hx : srv.xmlAt page = Except.ok r2) (hxc : xmlCheck r2 = false) :
    listLoop srv k (fuel + 1) page users
      = (ListRes.listErr r2.status r2.ctype (strTake 400 r2.body),
          [⟨page, Fmt.json⟩, ⟨page, Fmt.xml⟩]) :=
  listLoop_xml_err srv k fuel page users r r2 hj hc hx hxc

/-- Witness for C4 at a concrete input: the structured attempt answers 406
and the markup attempt answers 500 text/html, so the run aborts with the
500 text/html data of the markup attempt after requesting page 1 in both
formats. -/
theorem c4_concrete_run :
    listLoop demoBadServer 1000 1 1 []
      = (ListRes.listErr 500 "text/html" "boom", [⟨1, Fmt.json⟩, ⟨1, Fmt.xml⟩]) :=
  c4_fallback_error_reports_markup_attempt demoBadServer 1000 0 1 []
    ⟨406, "text/plain", "no", Payload.raw⟩
    ⟨500, "text/html", "boom", Payload.raw⟩ rfl rfl rfl rfl

/-- C9: the transport wrapper returns HTTP error responses as the same
(status, content-type, body) triple shape as successes instead of
raising, and the only attempts it turns into exceptions are
connection-level failures. -/
theorem c9_http_errors_returned_not_raised :
    (∀ (code : Nat) (c : Option String) (b : String),
        _http_request (HttpAttempt.httpError code c b) = Except.ok (code, c.getD "", b))
  ∧ (∀ (s : Nat) (c : Option String) (b : String),
        _http_request (HttpAttempt.success s c b) = Except.ok (s, c.getD "", b))
  ∧ (∀ (m : String), _http_request (HttpAttempt.connFailure m) = Except.error m)
  ∧ (∀ (a : HttpAttempt) (m : String), _http_request a = Except.error m →
        a = HttpAttempt.connFailure m) := by
  refine ⟨fun _ _ _ => rfl, fun _ _ _ => rfl, fun _ => rfl, ?_⟩
  intro a m h
  cases a with
  | success s c b => exact absurd h (by simp [_http_request])
  | httpError code c b => exact absurd h (by simp [_http_request])
  | connFailure s =>
    simp only [_http_request, Except.error.injEq] at h
    rw [h]

/-- Witness for C9 at a concrete input: a 503 with a body is handed back as
an inspectable triple, and an error result can only have come from a
connection failure. -/
theorem c9_concrete_run :
    _http_request (HttpAttempt.httpError 503 (some "text/html") "overloaded")
        = Except.ok (503, "text/html", "overloaded")
  ∧ HttpAttempt.connFailure "timeout" = HttpAttempt.connFailure "timeout" :=
  ⟨c9_http_errors_returned_not_raised.1 503 (some "text/html") "overloaded",
    c9_http_errors_returned_not_raised.2.2.2 (HttpAttempt.connFailure "timeout")
      "timeout" rfl⟩

/-- C7: the serializer emits the header row first and then one row per
record in input order; every row has exactly the six fixed columns id,
name, fullName, siteRole, lastLogin, email in that order, each holding
the record's value for that key or the empty string when the key is
absent; an empty record list yields a header-only table. -/
theorem c7_csv_rows_fixed_schema (us : List UserRec) (u : UserRec) :
    (csvTable us).length = us.length + 1
  ∧ (csvTable us).head? = some csvFields
  ∧ (∀ i (h : i < us.length), (csvTable us)[i + 1]? = some (rowOf (us.get ⟨i, h⟩)))
  ∧ (rowOf u).length = 6
  ∧ rowOf u = [recGet u "id", recGet u "name", recGet u "fullName",
      recGet u "siteRole", recGet u "lastLogin", recGet u "email"]
  ∧ (∀ kf, u.find? (fun p => p.1 == kf) = none → recGet u kf = "")
  ∧ csvTable [] = [csvFields] := by
  refine ⟨by simp [csvTable], rfl, ?_, rfl, rfl, ?_, rfl⟩
  · intro i h
    simp [csvTable, List.getElem?_map, List.getElem?_eq_getElem h]
  · intro kf hf
    simp [recGet, hf]

/-- Witness for C7 at a concrete input: the second table row is the row of
the first record, and a record without an email key serializes that
column as the empty string. -/
theorem c7_concrete_run :
    (csvTable [[("id", "7")], [("name", "n")]])[1]? = some (rowOf [("id", "7")])
  ∧ recGet [("name", "n")] "email" = "" :=
  ⟨(c7_csv_rows_fixed_schema [[("id", "7")], [("name", "n")]] [("name", "n")]).2.2.1
      0 (by decide),
    (c7_csv_rows_fixed_schema [[("id", "7")], [("name", "n")]] [("name", "n")]).2.2.2.2.2.1
      "email" (by decide)⟩

/-- C2: the claim that signin escapes or encodes the credential values does
not hold of the code: the body is built by raw string interpolation, so
an access-key secret containing a double quote ends the attribute value
early and corrupts the document structure.  A markup parser reading the
personalAccessTokenSecret attribute of the body built for the secret
containing a quote recovers a different string than the supplied secret,
while a secret free of reserved characters round-trips intact. -/
theorem c2_secret_quote_corrupts_signin_body :
    attrValue (signinBody "keyName" "pa\"ss" "site") "personalAccessTokenSecret"
        = some "pa"
  ∧ some "pa" ≠ some "pa\"ss"
  ∧ attrValue (signinBody "keyName" "tame-secret" "site") "personalAccessTokenSecret"
        = some "tame-secret"
  ∧ attrValue (signinBody "keyName" "tame-secret" "site") "personalAccessTokenName"
        = some "keyName" := by
  refine ⟨by decide, by decide, by decide, by decide⟩

/-- A world whose sign-in is rejected with HTTP 401. -/
def demoFailWorld : World :=
  ⟨Except.ok ⟨401, "application/xml", "denied", Payload.raw⟩, demoJsonServer, "bkt"⟩

/-- A world whose sign-in succeeds and whose server lists one user. -/
def demoOkWorld : World :=
  ⟨Except.ok ⟨200, "application/xml", "", Payload.creds "tok" "sid"⟩,
    demoJsonServer, "bkt"⟩

/-- C8: the export is all-or-nothing.  Whenever the run ends in an error —
sign-in failure, list error, transport failure, a parse failure, or fuel
exhaustion — no put to storage appears anywhere in the effect trace; and
on a successful run the single storage put is the final effect, emitted
only after the sign-in request and every page request of the complete
accumulated user list. -/
theorem c8_no_write_on_failure (w : World) (fuel : Nat) :
    ((∃ e, (lambda_handler w fuel).1 = Except.error e) →
      ∀ (b key : String) (t : List (List String)),
        Effect.s3Put b key t ∉ (lambda_handler w fuel).2)
  ∧ (∀ res, (lambda_handler w fuel).1 = Except.ok res →
      ∃ us, (list_site_users w.srv fuel 1000).1 = ListRes.ok us ∧
        (lambda_handler w fuel).2
          = Effect.signinReq :: (list_site_users w.srv fuel 1000).2.map Effect.userReq
              ++ [Effect.s3Put w.bucket s3Key (csvTable us)]) := by
  cases hs : signinStep w with
  | error e0 =>
    constructor
    · intro _ b key t hmem
      simp only [lambda_handler, hs] at hmem
      simp at hmem
    · intro res hres
      simp only [lambda_handler, hs] at hres
      exact absurd hres (by simp)
  | ok ts =>
    cases hl : (list_site_users w.srv fuel 1000).1 with
    | ok users =>
      constructor
      · rintro ⟨e, he⟩ b key t hmem
        simp only [lambda_handler, hs, hl] at he
        exact absurd he (by simp)
      · intro res hres
        refine ⟨users, rfl, ?_⟩
        simp only [lambda_handler, hs, hl]
    | listErr s c t0 =>
      constructor
      · intro _ b key t hmem
        simp only [lambda_handler, hs, hl] at hmem
        simp at hmem
      · intro res hres
        simp only [lambda_handler, hs, hl] at hres
        exact absurd hres (by simp)
    | parseFail =>
      constructor
      · intro _ b key t hmem
        simp only [lambda_handler, hs, hl] at hmem
        simp at hmem
      · intro res hres
        simp only [lambda_handler, hs, hl] at hres
        exact absurd hres (by simp)
    | transportFail m =>
      constructor
      · intro _ b key t hmem
        simp only [lambda_handler, hs, hl] at hmem
        simp at hmem
      · intro res hres
        simp only [lambda_handler, hs, hl] at hres
        exact absurd hres (by simp)
    | fuelOut =>
      constructor
      · intro _ b key t hmem
        simp only [lambda_handler, hs, hl] at hmem
        simp at hmem
      · intro res hres
        simp only [lambda_handler, hs, hl] at hres
        exact absurd hres (by simp)

/-- Witness for C8 at concrete inputs: a run whose sign-in is rejected with
401 performs no storage put, and a successful one-page run puts the
rendered table as its last effect, after sign-in and the page request. -/
theorem c8_concrete_run :
    Effect.s3Put "bkt" s3Key (csvTable [[("id", "x")]]) ∉ (lambda_handler demoFailWorld 1).2
  ∧ ∃ us, (list_site_users demoOkWorld.srv 1 1000).1 = ListRes.ok us ∧
      (lambda_handler demoOkWorld 1).2
        = Effect.signinReq :: (list_site_users demoOkWorld.srv 1 1000).2.map Effect.userReq
            ++ [Effect.s3Put demoOkWorld.bucket s3Key (csvTable us)] :=
  ⟨(c8_no_write_on_failure demoFailWorld 1).1
      ⟨RunError.authErr 401 "application/xml" "denied", rfl⟩
      "bkt" s3Key (csvTable [[("id", "x")]]),
    (c8_no_write_on_failure demoOkWorld 1).2 ⟨"ok", 1, "bkt", s3Key⟩ rfl⟩
